import Mathlib

/-!
Verification of the surf browser core against its specification.

The embedding covers the three source files of the repository:

* event/event.go — the Event enumeration and the Dispatcher with its
  On and Do operations.
* browser/browser.go — the Browser record, the navigation pipeline
  (httpRequest), request assembly (buildRequest, httpPOST), history
  navigation (Back, Reload), meta refresh handling (handleMetaRefresh,
  shouldRedirect as the redirect interception point), and Forms.
* surf.go — the NewBrowser constructor.

External collaborators are passed in explicitly: the HTTP transport
(net/http Client.Do with its per-hop CheckRedirect callback), the
document parser (goquery.NewDocumentFromResponse), time.ParseDuration
and base64 encoding.  Repository code that is not among the three
source files (the jar package: jar.State, jar.History,
jar.NewHistoryState) is modelled from the spec where noted.

Go handler closures are modelled as state passing functions; the Go
map http.Header is modelled as a list of key and value pairs, where
Add appends a pair (the keys used by the source are already in
canonical form, so canonicalisation is dropped).  The pipeline also
emits a trace of the externally visible actions it performs, in
program order, so that ordering properties of the pipeline can be
stated.
-/

/-- Errors, following the constructors of the repository errors package
that the three source files call. -/
inductive Err
  | handlerFail (msg : String)
  | location (url : String)
  | pageNotLoaded (msg : String)
  | transport (msg : String)
  | parseFailure (msg : String)
  deriving DecidableEq

/-- Event tags from event/event.go. -/
inductive Event
  | preRequest
  | postRequest
  | click
  | submit
  | recordStart
  | recordStop
  | recordReplay
  deriving DecidableEq

/-- A handler bound to an event.  Go handlers are closures whose effects
run against ambient state; the embedding threads that state explicitly
through a value of type sigma.  The handler receives the event tag, the
sender and the args exactly as Dispatcher.Do passes them. -/
def Handler (σ α β : Type) : Type :=
  Event → α → β → σ → σ × Option Err

/-- Dispatcher from event/event.go.  The handlers field models the Go
HandlerMap; a key that was never bound yields the empty list, as a Go
map lookup of a missing key yields a nil slice. -/
structure Dispatcher (σ α β : Type) where
  handlers : Event → List (Handler σ α β)

/-- NewDispatcher: a dispatcher with an empty handler map. -/
def NewDispatcher (σ α β : Type) : Dispatcher σ α β :=
  ⟨fun _ => []⟩

/-- On from event/event.go: appends a handler to the ordered list bound
to the given event, leaving other events untouched.  OnFunc appends in
the same way, so one operation models both. -/
def Dispatcher.On (d : Dispatcher σ α β) (e : Event) (h : Handler σ α β) :
    Dispatcher σ α β :=
  ⟨fun e2 => if e2 = e then d.handlers e2 ++ [h] else d.handlers e2⟩

/-- The loop body of Dispatcher.Do: run the handlers in list order,
threading the state, stopping at the first handler that returns an
error and returning that error. -/
def runHandlers : List (Handler σ α β) → Event → α → β → σ → σ × Option Err
  | [], _, _, _, s => (s, none)
  | h :: hs, e, sender, args, s =>
    match h e sender args s with
    | (s2, some err) => (s2, some err)
    | (s2, none) => runHandlers hs e sender args s2

/-- Do from event/event.go: runs the handlers bound to the given event. -/
def Dispatcher.Do (d : Dispatcher σ α β) (e : Event) (sender : α) (args : β)
    (s : σ) : σ × Option Err :=
  runHandlers (d.handlers e) e sender args s

/-- The state of the logging instrumentation used to observe a dispatch:
the list of (handler index, sender, args) invocations in order. -/
abbrev LogState (α β : Type) : Type :=
  List (Nat × α × β)

/-- A handler that records its own index together with the sender and
args it received, then returns the prescribed result. -/
def logHandler (i : Nat) (r : Option Err) : Handler (LogState α β) α β :=
  fun _ sender args log => (log ++ [(i, sender, args)], r)

/-- Binds the logging handlers for the given result list to the given
event, one On call per handler, numbering them from i. -/
def bindNumberedFrom (e : Event) :
    Dispatcher (LogState α β) α β → Nat → List (Option Err) →
    Dispatcher (LogState α β) α β
  | d, _, [] => d
  | d, i, r :: rs => bindNumberedFrom e (d.On e (logHandler i r)) (i + 1) rs

/-- The list of logging handlers numbered from i. -/
def logHandlersFrom (i : Nat) : List (Option Err) →
    List (Handler (LogState α β) α β)
  | [] => []
  | r :: rs => logHandler i r :: logHandlersFrom (i + 1) rs

/-- Written from the words of the spec, to be compared with Do: the
number of handlers the spec says a dispatch invokes, namely all of them
up to and including the first one that fails. -/
def specInvokedCount : List (Option Err) → Nat
  | [] => 0
  | some _ :: _ => 1
  | none :: rs => specInvokedCount rs + 1

/-- Written from the words of the spec, to be compared with Do: the
result the spec says a dispatch returns, namely the error of the first
failing handler, or success when none fails. -/
def specDoResult : List (Option Err) → Option Err
  | [] => none
  | some e :: _ => some e
  | none :: rs => specDoResult rs

/-- Browser attributes from browser/browser.go. -/
inductive Attribute
  | sendReferer
  | metaRefreshHandling
  | followRedirects
  deriving DecidableEq

/-- AttributeMap: a Go map from Attribute to bool; a missing key reads
as false. -/
def AttributeMap : Type :=
  Attribute → Bool

/-- Authorization from browser/browser.go. -/
structure Authorization where
  username : String
  password : String
  deriving DecidableEq

/-- An HTTP request as the pipeline sees it: method, URL, optional body
and the header list.  In Go the header field aliases the browser
headers jar after buildRequest runs; the embedding threads the shared
map through both sides explicitly at every Add site. -/
structure Request where
  method : String
  url : String
  body : Option String
  headers : List (String × String)
  deriving DecidableEq

/-- An HTTP response as delivered by the transport collaborator. -/
structure Response where
  statusCode : Nat
  respBody : String
  deriving DecidableEq

/-- A form element handle produced by the document query collaborator. -/
structure FormSel where
  ident : Nat
  deriving DecidableEq

/-- A parsed document handle.  Only the parts the pipeline itself reads
are modelled: the content attribute of the first meta refresh element
(outer none when no element matches, inner none when the element lacks
a content attribute) and the list of form elements in document order. -/
structure Document where
  metaRefresh : Option (Option String)
  forms : List FormSel
  deriving DecidableEq

/-- A Form as constructed by newForm in browser/browser.go, wrapping its
selection.  The Submit handler newForm also binds is dispatcher
behaviour outside the scope of the claims about Forms. -/
structure Form where
  sel : FormSel
  deriving DecidableEq

/-- newForm from browser/browser.go, restricted to the value it
constructs. -/
def newForm (s : FormSel) : Form :=
  ⟨s⟩

/-- Modelled from the spec: jar.State, the Session State triple of
request, response and document handle.  The Go fields are pointers and
hence nilable, which Option mirrors; jar.NewHistoryState fills all
three. -/
structure SessState where
  request : Option Request
  response : Option Response
  dom : Option Document
  deriving DecidableEq

/-- Modelled from the spec: jar.NewHistoryState builds a Session State
from the request, the response and the document handle. -/
def NewHistoryState (req : Request) (resp : Response) (dom : Document) :
    SessState :=
  ⟨some req, some resp, some dom⟩

/-- Modelled from the spec: jar.History, the History Stack of past
Session States, most recent first.  Entries are nilable pointers in Go,
hence Option; the bootstrap state of this repository is the nil
pointer. -/
structure History where
  stack : List (Option SessState)
  deriving DecidableEq

/-- Modelled from the spec: push appends the given state. -/
def History.Push (h : History) (s : Option SessState) : History :=
  ⟨s :: h.stack⟩

/-- Modelled from the spec: the number of stored entries. -/
def History.Len (h : History) : Nat :=
  h.stack.length

/-- Modelled from the spec: pop returns and removes the most recently
pushed state, but fails (returns none, removing nothing) if at most one
entry remains. -/
def History.Pop (h : History) : Option (Option SessState) × History :=
  match h.stack with
  | [] => (none, h)
  | s :: rest => if rest.isEmpty then (none, h) else (some s, ⟨rest⟩)

/-- The meta refresh timer: live until stopped, with its delay. -/
structure Timer where
  live : Bool
  delay : Nat
  deriving DecidableEq

/-- The Browser record from browser/browser.go, restricted to the
fields the covered claims read or write.  The refresh field models the
Go timer pointer: none is the nil pointer, a stopped timer keeps the
pointer set but dead, exactly as time.Timer.Stop leaves it. -/
structure Browser where
  state : Option SessState
  userAgent : String
  history : History
  headers : List (String × String)
  attributes : AttributeMap
  refresh : Option Timer
  auth : Authorization

/-- The externally visible actions of one navigation, in program
order, used to state ordering properties of the pipeline. -/
inductive NavAction
  | preDispatch
  | stopTimer
  | transportCall
  | parseDoc
  | pushHistory
  | setState
  | armTimer (delay : Nat)
  | postDispatch
  deriving DecidableEq

/-- The result of one run of the pipeline: the updated browser, the
error returned to the caller, and the action trace. -/
structure NavResult where
  bow : Browser
  err : Option Err
  trace : List NavAction

/-- The outcomes of the external collaborators consulted during one
navigation: the result of the PreRequest dispatch, the redirect hops
the transport encounters followed by its final outcome, the goquery
document parse, time.ParseDuration, and the result of the PostRequest
dispatch. -/
structure Env where
  pre : Request → Option Err
  hops : List Request
  final : Except Err Response
  parse : Response → Except Err Document
  parseDuration : String → Option Nat
  post : Response → Option Err

/-- shouldRedirect from browser/browser.go, the CheckRedirect callback
handed to the transport: consults the FollowRedirects attribute and, if
false, aborts the hop with a redirect disabled Location error naming
the URL it refused to follow. -/
def Browser.shouldRedirect (bow : Browser) (req : Request) : Option Err :=
  if bow.attributes Attribute.followRedirects then none
  else some (Err.location req.url)

/-- The transport exchange of buildClient built with CheckRedirect set
to shouldRedirect: on each redirect hop the callback is consulted; an
error from it aborts the exchange, otherwise the next hop is taken and
the final outcome is returned after the last hop.  Also returns the
list of hop URLs at which the callback was consulted. -/
def Browser.clientDo (bow : Browser) (hops : List Request)
    (final : Except Err Response) : Except Err Response × List String :=
  match hops with
  | [] => (final, [])
  | h :: rest =>
    match bow.shouldRedirect h with
    | some e => (Except.error e, [h.url])
    | none =>
      let r := Browser.clientDo bow rest final
      (r.1, h.url :: r.2)

/-- basicAuth from browser/browser.go; the base64 standard encoding is
an external library function passed in as enc. -/
def basicAuth (enc : String → String) (username password : String) : String :=
  enc (username ++ ":" ++ password)

/-- buildRequest from browser/browser.go.  The Go line req.Header =
bow.headers makes the request share the browser headers jar, so each
Add lands in both; the embedding returns the updated browser and a
request whose header field holds the shared map value. -/
def Browser.buildRequest (bow : Browser) (enc : String → String)
    (method : String) (u : String) (ref : Option String) :
    Browser × Request :=
  let h0 := bow.headers ++ [("User-Agent", bow.userAgent)]
  let h1 :=
    match ref with
    | some r =>
      if bow.attributes Attribute.sendReferer then h0 ++ [("Referer", r)]
      else h0
    | none => h0
  let h2 :=
    if bow.auth.username ≠ "" then
      h1 ++ [("Authorization",
        "Basic " ++ basicAuth enc bow.auth.username bow.auth.password)]
    else h1
  ({bow with headers := h2}, ⟨method, u, none, h2⟩)

/-- The timer stop at the start of the exchange phase: a nil timer is
left alone, a set timer is stopped in place. -/
def Browser.stopRefresh (bow : Browser) : Browser × List NavAction :=
  match bow.refresh with
  | some t => ({bow with refresh := some ⟨false, t.delay⟩}, [NavAction.stopTimer])
  | none => (bow, [])

/-- The read bow.Find on the meta refresh tag performed by
handleMetaRefresh, evaluated against the current state.  Its only
caller runs after the new state is committed, so the state is set
there; on a nil state no element matches. -/
def Browser.findRefreshContent (bow : Browser) : Option (Option String) :=
  match bow.state with
  | none => none
  | some st =>
    match st.dom with
    | none => none
    | some d => d.metaRefresh

/-- handleMetaRefresh from browser/browser.go: when the
MetaRefreshHandling attribute is set and the page carries a meta
refresh element with a content attribute, parse the delay by appending
the unit suffix and applying time.ParseDuration; on success arm a new
timer for that delay (overwriting the timer field), on failure do
nothing and raise nothing.  The goroutine that waits on the timer and
reloads runs in the background and is outside this embedding. -/
def Browser.handleMetaRefresh (bow : Browser) (pd : String → Option Nat) :
    Browser × List NavAction :=
  if bow.attributes Attribute.metaRefreshHandling then
    match bow.findRefreshContent with
    | some (some attr) =>
      match pd (attr ++ "s") with
      | some dur => ({bow with refresh := some ⟨true, dur⟩}, [NavAction.armTimer dur])
      | none => (bow, [])
    | _ => (bow, [])
  else (bow, [])

/-- httpRequest from browser/browser.go, the navigation pipeline: run
the PreRequest dispatch and abort on its error before touching
anything; stop any set meta refresh timer; run the transport exchange
and abort on error; parse the document and abort on error; push the
previous current state onto history and commit the new state; handle
the meta refresh tag of the new page; run the PostRequest dispatch and
return its result. -/
def Browser.httpRequest (bow : Browser) (env : Env) (req : Request) :
    NavResult :=
  match env.pre req with
  | some err => ⟨bow, some err, [NavAction.preDispatch]⟩
  | none =>
    let sr := bow.stopRefresh
    let bow1 := sr.1
    let tr1 := NavAction.preDispatch :: sr.2
    match (bow1.clientDo env.hops env.final).1 with
    | Except.error e => ⟨bow1, some e, tr1 ++ [NavAction.transportCall]⟩
    | Except.ok resp =>
      match env.parse resp with
      | Except.error e =>
        ⟨bow1, some e, tr1 ++ [NavAction.transportCall, NavAction.parseDoc]⟩
      | Except.ok dom =>
        let bow2 := {bow1 with
          history := bow1.history.Push bow1.state,
          state := some (NewHistoryState req resp dom)}
        let mr := bow2.handleMetaRefresh env.parseDuration
        ⟨mr.1, env.post resp,
          tr1 ++ [NavAction.transportCall, NavAction.parseDoc,
                  NavAction.pushHistory, NavAction.setState]
              ++ mr.2 ++ [NavAction.postDispatch]⟩

/-- httpGET from browser/browser.go: build a GET request and run the
pipeline on it. -/
def Browser.httpGET (bow : Browser) (enc : String → String) (env : Env)
    (u : String) (ref : Option String) : NavResult :=
  let br := bow.buildRequest enc "GET" u ref
  br.1.httpRequest env br.2

/-- httpPOST from browser/browser.go: build a POST request, set its
body, and Add the Content-Type header.  That Add runs on the header map
shared with the browser headers jar, so it lands in both. -/
def Browser.httpPOST (bow : Browser) (enc : String → String) (env : Env)
    (u : String) (ref : Option String) (contentType : String)
    (body : Option String) : NavResult :=
  let br := bow.buildRequest enc "POST" u ref
  let req := {br.2 with
    body := body,
    headers := br.2.headers ++ [("Content-Type", contentType)]}
  let bow2 := {br.1 with
    headers := br.1.headers ++ [("Content-Type", contentType)]}
  bow2.httpRequest env req

/-- Reload from browser/browser.go.  The receiver reads
bow.state.Request, so a nil state makes it dereference a nil pointer:
that run has no value, modelled as none.  With a state that carries a
request it re-issues that exact request through the pipeline; with a
state that carries none it returns the PageNotLoaded error. -/
def Browser.Reload (bow : Browser) (env : Env) : Option NavResult :=
  match bow.state with
  | none => none
  | some st =>
    match st.request with
    | some req => some (bow.httpRequest env req)
    | none =>
      some ⟨bow,
        some (Err.pageNotLoaded "Cannot reload, the previous request failed."),
        []⟩

/-- Back from browser/browser.go: when more than one history entry
exists, pop and make the popped entry current, reporting true;
otherwise report false and change nothing.  Back calls no transport:
its type takes no Env. -/
def Browser.Back (bow : Browser) : Browser × Bool :=
  if bow.history.Len > 1 then
    match bow.history.Pop with
    | (some s, h2) => ({bow with state := s, history := h2}, true)
    | (none, h2) => ({bow with state := none, history := h2}, true)
  else (bow, false)

/-- n repeated Back calls. -/
def backN : Nat → Browser → Browser
  | 0, b => b
  | n + 1, b => backN n (b.Back).1

/-- Forms from browser/browser.go: read the form elements of the
current page; on zero matches return the nil slice (the empty list
here); otherwise allocate a slice of the match count, which fills it
with that many nil entries, then append one constructed form per match
in document order.  A nil state or document would make the read panic,
modelled as none. -/
def Browser.Forms (bow : Browser) : Option (List (Option Form)) :=
  match bow.state with
  | none => none
  | some st =>
    match st.dom with
    | none => none
    | some d =>
      let n := d.forms.length
      if n = 0 then some []
      else
        some (d.forms.foldl (fun forms s => forms ++ [some (newForm s)])
          (List.replicate n (none : Option Form)))

/-- agent.Create, repository code outside the three source files; the
claims do not depend on its value. -/
def agentCreate : String :=
  "Surf"

/-- NewBrowser from surf.go: empty cookie, bookmark, history and header
jars, the default user agent, all three attributes set to their default
true, and no state field initialisation, leaving the state a nil
pointer. -/
def NewBrowser : Browser where
  state := none
  userAgent := agentCreate
  history := ⟨[]⟩
  headers := []
  attributes := fun _ => true
  refresh := none
  auth := ⟨"", ""⟩

/-- Number of header entries carrying the given key. -/
def headerCount (k : String) (hs : List (String × String)) : Nat :=
  (hs.filter (fun p => p.1 == k)).length

/-- Runs a sequence of navigations, each with its own collaborator
outcomes, keeping the browser each pipeline run returns. -/
def navRun (steps : List (Env × Request)) (bow : Browser) : Browser :=
  steps.foldl (fun b s => (b.httpRequest s.1 s.2).bow) bow

/-- A navigation committed when its trace reached the history push,
that is, the transport and the document parse both succeeded. -/
def committed (b : Browser) (s : Env × Request) : Bool :=
  decide (NavAction.pushHistory ∈ (b.httpRequest s.1 s.2).trace)

/-- Every navigation of the sequence committed, checked against the
browser each one actually ran on. -/
def allCommitted : Browser → List (Env × Request) → Bool
  | _, [] => true
  | b, s :: rest => committed b s && allCommitted (b.httpRequest s.1 s.2).bow rest

/-- Concrete fixture: a GET request. -/
def req0 : Request :=
  ⟨"GET", "u1", none, []⟩

/-- Concrete fixture: a second GET request. -/
def req1 : Request :=
  ⟨"GET", "u2", none, []⟩

/-- Concrete fixture: a response. -/
def resp0 : Response :=
  ⟨200, "ok"⟩

/-- Concrete fixture: a page with no meta refresh and no forms. -/
def doc0 : Document :=
  ⟨none, []⟩

/-- Concrete fixture: a page with two form elements. -/
def doc2 : Document :=
  ⟨none, [⟨1⟩, ⟨2⟩]⟩

/-- Concrete fixture: a page carrying a meta refresh directive. -/
def docR : Document :=
  ⟨some (some "2"), []⟩

/-- Concrete fixture: collaborators that all succeed. -/
def envOk : Env :=
  ⟨fun _ => none, [], Except.ok resp0, fun _ => Except.ok doc0,
   fun _ => none, fun _ => none⟩

/-- Concrete fixture: the PreRequest dispatch vetoes the navigation. -/
def envPreFail : Env :=
  ⟨fun _ => some (Err.handlerFail "veto"), [], Except.ok resp0,
   fun _ => Except.ok doc0, fun _ => none, fun _ => none⟩

/-- Concrete fixture: the PostRequest dispatch fails. -/
def envPostFail : Env :=
  ⟨fun _ => none, [], Except.ok resp0, fun _ => Except.ok doc0,
   fun _ => none, fun _ => some (Err.handlerFail "post")⟩

/-- Concrete fixture: the transport encounters one redirect hop. -/
def envRedirect : Env :=
  ⟨fun _ => none, [req1], Except.ok resp0, fun _ => Except.ok doc0,
   fun _ => none, fun _ => none⟩

/-- Concrete fixture: a successful navigation to a refreshing page with
a parsable delay. -/
def envRefresh : Env :=
  ⟨fun _ => none, [], Except.ok resp0, fun _ => Except.ok docR,
   fun _ => some 2, fun _ => none⟩

/-- Concrete fixture: a loaded session state. -/
def stLoaded : SessState :=
  NewHistoryState req0 resp0 doc0

/-- Concrete fixture: a browser after one successful navigation. -/
def bLoaded : Browser :=
  {NewBrowser with state := some stLoaded, history := ⟨[none]⟩}

/-- Concrete fixture: a loaded browser with FollowRedirects false. -/
def bNoRedirect : Browser :=
  {bLoaded with attributes := fun a =>
    match a with
    | Attribute.followRedirects => false
    | _ => true}

/-- Concrete fixture: a loaded browser with a live meta refresh timer. -/
def bTimer : Browser :=
  {bLoaded with refresh := some ⟨true, 5⟩}

/-- Concrete fixture: a browser whose current page has two forms. -/
def bForms : Browser :=
  {NewBrowser with state := some ⟨some req0, some resp0, some doc2⟩}

/-- Concrete fixture: a browser whose history has three entries. -/
def bDeep : Browser :=
  {bLoaded with history := ⟨[some stLoaded, some stLoaded, none]⟩}

/-- Concrete fixture: a browser whose current page carries the meta
refresh directive. -/
def bDocR : Browser :=
  {bLoaded with state := some ⟨some req0, some resp0, some docR⟩}

/-- Appending one element at a time with foldl is the same as appending
the mapped list. -/
theorem foldl_append_map {γ δ : Type} (l : List γ) (f : γ → δ) :
    ∀ init : List δ, l.foldl (fun acc s => acc ++ [f s]) init = init ++ l.map f := by
  induction l with
  | nil => intro init; simp
  | cons x xs ih => intro init; simp [List.foldl, ih]

@[simp] theorem stopRefresh_state (bow : Browser) :
    (bow.stopRefresh).1.state = bow.state := by
  unfold Browser.stopRefresh; cases bow.refresh <;> rfl

@[simp] theorem stopRefresh_history (bow : Browser) :
    (bow.stopRefresh).1.history = bow.history := by
  unfold Browser.stopRefresh; cases bow.refresh <;> rfl

@[simp] theorem stopRefresh_headers (bow : Browser) :
    (bow.stopRefresh).1.headers = bow.headers := by
  unfold Browser.stopRefresh; cases bow.refresh <;> rfl

@[simp] theorem stopRefresh_attributes (bow : Browser) :
    (bow.stopRefresh).1.attributes = bow.attributes := by
  unfold Browser.stopRefresh; cases bow.refresh <;> rfl

theorem stopRefresh_trace (bow : Browser) :
    (bow.stopRefresh).2 = [] ∨ (bow.stopRefresh).2 = [NavAction.stopTimer] := by
  unfold Browser.stopRefresh; cases bow.refresh
  · exact Or.inl rfl
  · exact Or.inr rfl

/-- The meta refresh handler either arms a timer for some parsed delay,
reporting exactly that action, or leaves the browser untouched. -/
theorem handleMetaRefresh_cases (bow : Browser) (pd : String → Option Nat) :
    (∃ d, bow.handleMetaRefresh pd =
      ({bow with refresh := some ⟨true, d⟩}, [NavAction.armTimer d]))
    ∨ bow.handleMetaRefresh pd = (bow, []) := by
  unfold Browser.handleMetaRefresh
  split
  · split
    · split
      · exact Or.inl ⟨_, rfl⟩
      · exact Or.inr rfl
    · exact Or.inr rfl
  · exact Or.inr rfl

@[simp] theorem handleMetaRefresh_state (bow : Browser) (pd : String → Option Nat) :
    (bow.handleMetaRefresh pd).1.state = bow.state := by
  rcases handleMetaRefresh_cases bow pd with ⟨d, h⟩ | h <;> rw [h]

@[simp] theorem handleMetaRefresh_history (bow : Browser) (pd : String → Option Nat) :
    (bow.handleMetaRefresh pd).1.history = bow.history := by
  rcases handleMetaRefresh_cases bow pd with ⟨d, h⟩ | h <;> rw [h]

@[simp] theorem handleMetaRefresh_headers (bow : Browser) (pd : String → Option Nat) :
    (bow.handleMetaRefresh pd).1.headers = bow.headers := by
  rcases handleMetaRefresh_cases bow pd with ⟨d, h⟩ | h <;> rw [h]

/-- The transport exchange only reads the attribute map, so stopping
the timer first does not change its outcome. -/
theorem clientDo_congr (b1 b2 : Browser) (h : b1.attributes = b2.attributes)
    (hops : List Request) (final : Except Err Response) :
    b1.clientDo hops final = b2.clientDo hops final := by
  induction hops with
  | nil => rfl
  | cons hd tl ih => simp [Browser.clientDo, Browser.shouldRedirect, h, ih]

theorem clientDo_stopRefresh (bow : Browser) (hops : List Request)
    (final : Except Err Response) :
    (bow.stopRefresh).1.clientDo hops final = bow.clientDo hops final :=
  clientDo_congr _ _ (stopRefresh_attributes bow) hops final

/-- A failing PreRequest dispatch returns its error with the browser
untouched and only the dispatch in the trace. -/
theorem httpRequest_pre_fail (bow : Browser) (env : Env) (req : Request)
    (err : Err) (h : env.pre req = some err) :
    bow.httpRequest env req = ⟨bow, some err, [NavAction.preDispatch]⟩ := by
  unfold Browser.httpRequest
  rw [h]

/-- A transport failure returns its error with only the timer stop
applied to the browser. -/
theorem httpRequest_transport_fail (bow : Browser) (env : Env) (req : Request)
    (e : Err) (hpre : env.pre req = none)
    (hcl : (bow.clientDo env.hops env.final).1 = Except.error e) :
    bow.httpRequest env req =
      ⟨(bow.stopRefresh).1, some e,
        NavAction.preDispatch :: (bow.stopRefresh).2 ++ [NavAction.transportCall]⟩ := by
  unfold Browser.httpRequest
  rw [hpre]
  simp only [clientDo_stopRefresh, hcl]

/-- A document parse failure returns its error with only the timer stop
applied to the browser. -/
theorem httpRequest_parse_fail (bow : Browser) (env : Env) (req : Request)
    (resp : Response) (e : Err) (hpre : env.pre req = none)
    (hcl : (bow.clientDo env.hops env.final).1 = Except.ok resp)
    (hparse : env.parse resp = Except.error e) :
    bow.httpRequest env req =
      ⟨(bow.stopRefresh).1, some e,
        NavAction.preDispatch :: (bow.stopRefresh).2
          ++ [NavAction.transportCall, NavAction.parseDoc]⟩ := by
  unfold Browser.httpRequest
  rw [hpre]
  simp only [clientDo_stopRefresh, hcl, hparse]

/-- The committed branch of the pipeline: the shape of the result when
the dispatch, transport and parse all succeed. -/
theorem httpRequest_commit (bow : Browser) (env : Env) (req : Request)
    (resp : Response) (dom : Document) (hpre : env.pre req = none)
    (hcl : (bow.clientDo env.hops env.final).1 = Except.ok resp)
    (hparse : env.parse resp = Except.ok dom) :
    bow.httpRequest env req =
      ⟨(({(bow.stopRefresh).1 with
          history := (bow.stopRefresh).1.history.Push (bow.stopRefresh).1.state,
          state := some (NewHistoryState req resp dom)}).handleMetaRefresh
            env.parseDuration).1,
        env.post resp,
        NavAction.preDispatch :: (bow.stopRefresh).2
          ++ [NavAction.transportCall, NavAction.parseDoc,
              NavAction.pushHistory, NavAction.setState]
          ++ (({(bow.stopRefresh).1 with
              history := (bow.stopRefresh).1.history.Push (bow.stopRefresh).1.state,
              state := some (NewHistoryState req resp dom)}).handleMetaRefresh
                env.parseDuration).2
          ++ [NavAction.postDispatch]⟩ := by
  unfold Browser.httpRequest
  rw [hpre]
  simp only [clientDo_stopRefresh, hcl, hparse]

/-- Field view of the committed branch: the previous current state sits
on top of the history, the new state is current, the PostRequest result
is returned, and the trace reached the history push. -/
theorem httpRequest_commit_fields (bow : Browser) (env : Env) (req : Request)
    (resp : Response) (dom : Document) (hpre : env.pre req = none)
    (hcl : (bow.clientDo env.hops env.final).1 = Except.ok resp)
    (hparse : env.parse resp = Except.ok dom) :
    (bow.httpRequest env req).bow.state = some (NewHistoryState req resp dom)
    ∧ (bow.httpRequest env req).bow.history.stack = bow.state :: bow.history.stack
    ∧ (bow.httpRequest env req).err = env.post resp
    ∧ NavAction.pushHistory ∈ (bow.httpRequest env req).trace := by
  rw [httpRequest_commit bow env req resp dom hpre hcl hparse]
  refine ⟨by simp, ?_, rfl, by simp⟩
  simp [History.Push]

/-- The pipeline never writes the headers jar. -/
theorem httpRequest_headers (bow : Browser) (env : Env) (req : Request) :
    (bow.httpRequest env req).bow.headers = bow.headers := by
  cases hpre : env.pre req with
  | some err => rw [httpRequest_pre_fail bow env req err hpre]
  | none =>
    cases hcl : (bow.clientDo env.hops env.final).1 with
    | error e => rw [httpRequest_transport_fail bow env req e hpre hcl]; simp
    | ok resp =>
      cases hparse : env.parse resp with
      | error e => rw [httpRequest_parse_fail bow env req resp e hpre hcl hparse]; simp
      | ok dom => rw [httpRequest_commit bow env req resp dom hpre hcl hparse]; simp

/-- A navigation that did not reach the transport or the parse step did
not push history. -/
theorem committed_growth (b : Browser) (s : Env × Request)
    (h : committed b s = true) :
    (b.httpRequest s.1 s.2).bow.history.Len = b.history.Len + 1 := by
  unfold committed at h
  rw [decide_eq_true_eq] at h
  cases hpre : s.1.pre s.2 with
  | some err => rw [httpRequest_pre_fail b s.1 s.2 err hpre] at h; simp at h
  | none =>
    cases hcl : (b.clientDo s.1.hops s.1.final).1 with
    | error e =>
      rw [httpRequest_transport_fail b s.1 s.2 e hpre hcl] at h
      rcases stopRefresh_trace b with ht | ht <;> rw [ht] at h <;> simp at h
    | ok resp =>
      cases hparse : s.1.parse resp with
      | error e =>
        rw [httpRequest_parse_fail b s.1 s.2 resp e hpre hcl hparse] at h
        rcases stopRefresh_trace b with ht | ht <;> rw [ht] at h <;> simp at h
      | ok dom =>
        have hc := httpRequest_commit_fields b s.1 s.2 resp dom hpre hcl hparse
        unfold History.Len
        rw [hc.2.1]
        simp [History.Len]

/-- History length grows by exactly one per committed navigation. -/
theorem navRun_len (steps : List (Env × Request)) :
    ∀ b : Browser, allCommitted b steps = true →
    (navRun steps b).history.Len = b.history.Len + steps.length := by
  induction steps with
  | nil => intro b _; simp [navRun]
  | cons s rest ih =>
    intro b h
    unfold allCommitted at h
    rw [Bool.and_eq_true] at h
    have h2 : navRun (s :: rest) b = navRun rest (b.httpRequest s.1 s.2).bow := rfl
    rw [h2, ih _ h.2, committed_growth b s h.1]
    simp [List.length_cons]
    omega

/-- Binding the numbered logging handlers appends them, in binding
order, to the list of the bound event only. -/
theorem bindNumberedFrom_handlers {α β : Type} (e : Event)
    (rs : List (Option Err)) :
    ∀ (d : Dispatcher (LogState α β) α β) (i : Nat) (e2 : Event),
    (bindNumberedFrom e d i rs).handlers e2 =
      if e2 = e then d.handlers e2 ++ logHandlersFrom i rs
      else d.handlers e2 := by
  induction rs with
  | nil =>
    intro d i e2
    by_cases h : e2 = e <;> simp [bindNumberedFrom, logHandlersFrom, h]
  | cons r rest ih =>
    intro d i e2
    by_cases h : e2 = e
    · simp [bindNumberedFrom, ih, Dispatcher.On, h, logHandlersFrom]
    · simp [bindNumberedFrom, ih, Dispatcher.On, h]

/-- Index arithmetic for the invocation log. -/
theorem range_map_shift {α β : Type} (sender : α) (args : β) (i c : Nat) :
    (i, sender, args) :: (List.range c).map (fun j => (i + 1 + j, sender, args)) =
      (List.range (c + 1)).map (fun j => (i + j, sender, args)) := by
  rw [List.range_succ_eq_map]
  simp only [List.map_cons, List.map_map, Function.comp, Nat.add_zero]
  refine congrArg (fun l => (i, sender, args) :: l) ?_
  refine congrFun (congrArg List.map ?_) (List.range c)
  funext j
  have hj : i + 1 + j = i + (j + 1) := by omega
  simp [hj]

/-- Running the numbered logging handlers logs exactly the invoked
indices in ascending order, each receiving the sender and args
unchanged, and returns the specified dispatch result. -/
theorem runHandlers_log {α β : Type} (e : Event) (sender : α) (args : β)
    (rs : List (Option Err)) :
    ∀ (i : Nat) (L : LogState α β),
    runHandlers (logHandlersFrom i rs) e sender args L =
      (L ++ (List.range (specInvokedCount rs)).map (fun j => (i + j, sender, args)),
        specDoResult rs) := by
  induction rs with
  | nil =>
    intro i L
    simp [logHandlersFrom, runHandlers, specInvokedCount, specDoResult]
  | cons r rest ih =>
    intro i L
    cases r with
    | some err =>
      simp [logHandlersFrom, runHandlers, logHandler, specInvokedCount,
        specDoResult, List.range_succ_eq_map]
    | none =>
      have step : runHandlers (logHandlersFrom i (none :: rest)) e sender args L =
          runHandlers (logHandlersFrom (i + 1) rest) e sender args
            (L ++ [(i, sender, args)]) := by
        simp [logHandlersFrom, runHandlers, logHandler]
      rw [step, ih (i + 1) (L ++ [(i, sender, args)])]
      simp only [specInvokedCount, specDoResult]
      rw [List.append_assoc]
      refine congrArg (fun l => (L ++ l, specDoResult rest)) ?_
      exact range_map_shift sender args i (specInvokedCount rest)

/-- The spec never counts more invocations than there are handlers. -/
theorem specInvokedCount_le (rs : List (Option Err)) :
    specInvokedCount rs ≤ rs.length := by
  induction rs with
  | nil => simp [specInvokedCount]
  | cons r rest ih =>
    cases r <;> simp [specInvokedCount] <;> omega

/-- C2: dispatching an event to handlers bound in registration order
invokes exactly those handlers, in that order, passing sender and args
unchanged to each; it stops at the first handler that returns an error
and returns that error, and returns success when none fails.  The bound
handlers log their index together with the sender and args they
receive, so the invocation log on the left determines which handlers
ran, in which order, and with which arguments; specInvokedCount and
specDoResult state, in the words of the spec, that the invoked handlers
are exactly the prefix up to and including the first failing one and
that its error is returned.  Handlers bound to the event are never run
for a different event. -/
theorem dispatcher_do_spec {α β : Type} (e e2 : Event) (sender : α) (args : β)
    (rs : List (Option Err)) (hne : e2 ≠ e) :
    (bindNumberedFrom e (NewDispatcher (LogState α β) α β) 0 rs).Do
        e sender args [] =
      ((List.range (specInvokedCount rs)).map (fun j => (j, sender, args)),
        specDoResult rs)
    ∧ (bindNumberedFrom e (NewDispatcher (LogState α β) α β) 0 rs).Do
        e2 sender args [] = ([], none)
    ∧ specInvokedCount rs ≤ rs.length := by
  refine ⟨?_, ?_, specInvokedCount_le rs⟩
  · rw [Dispatcher.Do, bindNumberedFrom_handlers]
    simp only [NewDispatcher, eq_self_iff_true, if_true, List.nil_append]
    rw [runHandlers_log]
    simp
  · rw [Dispatcher.Do, bindNumberedFrom_handlers]
    simp [NewDispatcher, hne, runHandlers]

/-- Witness for the dispatcher theorem: three handlers bound to
PreRequest, of which the second fails; dispatching PreRequest invokes
handlers 0 and 1 with the given sender and args and returns the error
of handler 1, while dispatching Click invokes nothing. -/
theorem dispatcher_do_spec_witness :
    Event.click ≠ Event.preRequest
    ∧ (bindNumberedFrom Event.preRequest
          (NewDispatcher (LogState String Nat) String Nat) 0
          [none, some (Err.handlerFail "boom"), none]).Do
        Event.preRequest "s" 7 [] =
        ([(0, "s", 7), (1, "s", 7)], some (Err.handlerFail "boom"))
    ∧ (bindNumberedFrom Event.preRequest
          (NewDispatcher (LogState String Nat) String Nat) 0
          [none, some (Err.handlerFail "boom"), none]).Do
        Event.click "s" 7 [] = ([], none) := by
  have h := dispatcher_do_spec Event.preRequest Event.click "s" 7
    [none, some (Err.handlerFail "boom"), none] (by decide)
  exact ⟨by decide, h.1, h.2.1⟩

/-- C1: on every navigation whose transport and document parse succeed,
the state that was current immediately before the navigation is pushed
onto the history stack (it, and never the new state, becomes the top
entry) while the newly constructed state becomes current; consequently
a sequence of navigations that all commit grows the history by exactly
its length, and from the freshly constructed browser a sequence of n
committed navigations leaves history length n, the bootstrap state
being the initial pushed entry. -/
theorem httpRequest_history_growth :
    (∀ (bow : Browser) (env : Env) (req : Request) (resp : Response)
        (dom : Document),
      env.pre req = none →
      (bow.clientDo env.hops env.final).1 = Except.ok resp →
      env.parse resp = Except.ok dom →
      (bow.httpRequest env req).bow.history.stack = bow.state :: bow.history.stack
      ∧ (bow.httpRequest env req).bow.state = some (NewHistoryState req resp dom)
      ∧ (bow.httpRequest env req).bow.history.Len = bow.history.Len + 1)
    ∧ (∀ (steps : List (Env × Request)) (b : Browser),
      allCommitted b steps = true →
      (navRun steps b).history.Len = b.history.Len + steps.length)
    ∧ (∀ steps : List (Env × Request),
      allCommitted NewBrowser steps = true →
      (navRun steps NewBrowser).history.Len = steps.length) := by
  refine ⟨?_, fun steps b h => navRun_len steps b h, ?_⟩
  · intro bow env req resp dom hpre hcl hparse
    have hc := httpRequest_commit_fields bow env req resp dom hpre hcl hparse
    refine ⟨hc.2.1, hc.1, ?_⟩
    unfold History.Len
    rw [hc.2.1]
    simp
  · intro steps h
    rw [navRun_len steps NewBrowser h]
    simp [NewBrowser, History.Len]

/-- Witness for the history growth theorem: two committed navigations
from the fresh browser leave a history of length two, and one committed
navigation pushes the previous current state. -/
theorem httpRequest_history_growth_witness :
    (envOk.pre req0 = none
      ∧ (bLoaded.clientDo envOk.hops envOk.final).1 = Except.ok resp0
      ∧ envOk.parse resp0 = Except.ok doc0
      ∧ (bLoaded.httpRequest envOk req0).bow.history.stack =
          bLoaded.state :: bLoaded.history.stack)
    ∧ (allCommitted NewBrowser [(envOk, req0), (envOk, req1)] = true
      ∧ (navRun [(envOk, req0), (envOk, req1)] NewBrowser).history.Len = 2) := by
  refine ⟨⟨rfl, rfl, rfl, ?_⟩, ⟨?_, ?_⟩⟩
  · exact (httpRequest_history_growth.1 bLoaded envOk req0 resp0 doc0 rfl rfl rfl).1
  · decide
  · exact httpRequest_history_growth.2.2 [(envOk, req0), (envOk, req1)] (by decide)

/-- C3: when the PreRequest dispatch returns an error, the pipeline
returns exactly that error with the browser, in particular its current
state and history, completely unchanged, and the transport is never
invoked (no transport call in the trace). -/
theorem preRequest_failure_aborts (bow : Browser) (env : Env) (req : Request)
    (err : Err) (h : env.pre req = some err) :
    bow.httpRequest env req = ⟨bow, some err, [NavAction.preDispatch]⟩
    ∧ (bow.httpRequest env req).bow.state = bow.state
    ∧ (bow.httpRequest env req).bow.history = bow.history
    ∧ NavAction.transportCall ∉ (bow.httpRequest env req).trace := by
  have he := httpRequest_pre_fail bow env req err h
  rw [he]
  exact ⟨rfl, rfl, rfl, by simp⟩

/-- Witness for the PreRequest veto theorem at a vetoing environment. -/
theorem preRequest_failure_aborts_witness :
    envPreFail.pre req0 = some (Err.handlerFail "veto")
    ∧ bLoaded.httpRequest envPreFail req0 =
        ⟨bLoaded, some (Err.handlerFail "veto"), [NavAction.preDispatch]⟩
    ∧ NavAction.transportCall ∉ (bLoaded.httpRequest envPreFail req0).trace := by
  have h := preRequest_failure_aborts bLoaded envPreFail req0
    (Err.handlerFail "veto") rfl
  exact ⟨rfl, h.1, h.2.2.2⟩

/-- C4: when the transport exchange and the commit succeed but the
PostRequest dispatch fails, its error is returned to the caller while
the committed navigation stands: the new state stays current and the
pushed history entry stays in place. -/
theorem postRequest_failure_no_rollback (bow : Browser) (env : Env)
    (req : Request) (resp : Response) (dom : Document) (err : Err)
    (hpre : env.pre req = none)
    (hcl : (bow.clientDo env.hops env.final).1 = Except.ok resp)
    (hparse : env.parse resp = Except.ok dom)
    (hpost : env.post resp = some err) :
    (bow.httpRequest env req).err = some err
    ∧ (bow.httpRequest env req).bow.state = some (NewHistoryState req resp dom)
    ∧ (bow.httpRequest env req).bow.history.stack =
        bow.state :: bow.history.stack := by
  have hc := httpRequest_commit_fields bow env req resp dom hpre hcl hparse
  exact ⟨by rw [hc.2.2.1, hpost], hc.1, hc.2.1⟩

/-- Witness for the no-rollback theorem at an environment whose
PostRequest dispatch fails. -/
theorem postRequest_failure_no_rollback_witness :
    envPostFail.pre req0 = none
    ∧ (bLoaded.clientDo envPostFail.hops envPostFail.final).1 = Except.ok resp0
    ∧ envPostFail.parse resp0 = Except.ok doc0
    ∧ envPostFail.post resp0 = some (Err.handlerFail "post")
    ∧ (bLoaded.httpRequest envPostFail req0).err = some (Err.handlerFail "post")
    ∧ (bLoaded.httpRequest envPostFail req0).bow.state =
        some (NewHistoryState req0 resp0 doc0)
    ∧ (bLoaded.httpRequest envPostFail req0).bow.history.stack =
        bLoaded.state :: bLoaded.history.stack := by
  have h := postRequest_failure_no_rollback bLoaded envPostFail req0 resp0 doc0
    (Err.handlerFail "post") rfl rfl rfl rfl
  exact ⟨rfl, rfl, rfl, rfl, h.1, h.2.1, h.2.2⟩

/-- One Back call never empties a nonempty history. -/
theorem back_len_ge (b : Browser) (h : 1 ≤ b.history.Len) :
    1 ≤ (b.Back).1.history.Len := by
  unfold Browser.Back
  split
  · rename_i hl
    cases hs : b.history.stack with
    | nil => unfold History.Len at hl; rw [hs] at hl; simp at hl
    | cons s rest =>
      cases rest with
      | nil => unfold History.Len at hl; rw [hs] at hl; simp at hl
      | cons r rs =>
        have hpop : b.history.Pop = (some s, ⟨r :: rs⟩) := by
          unfold History.Pop; rw [hs]; rfl
        rw [hpop]
        simp [History.Len]
  · exact h

/-- C5: Back pops the most recent history entry and makes it current,
returning true, exactly when the history length exceeds one; otherwise
it returns false and changes nothing; repeated Back calls never push
the history length below one.  Back takes no transport environment at
all, so it can re-issue no HTTP exchange. -/
theorem back_spec (bow : Browser) :
    (bow.Back).2 = decide (bow.history.Len > 1)
    ∧ (∀ s rest, bow.history.stack = s :: rest → rest ≠ [] →
        bow.Back = ({bow with state := s, history := ⟨rest⟩}, true))
    ∧ (bow.history.Len ≤ 1 → bow.Back = (bow, false))
    ∧ (∀ n, 1 ≤ bow.history.Len → 1 ≤ (backN n bow).history.Len) := by
  have hpopped : ∀ s rest, bow.history.stack = s :: rest → rest ≠ [] →
      bow.Back = ({bow with state := s, history := ⟨rest⟩}, true) := by
    intro s rest hs hne
    cases rest with
    | nil => exact absurd rfl hne
    | cons r rs =>
      have hl : bow.history.Len > 1 := by
        unfold History.Len; rw [hs]; simp
      have hpop : bow.history.Pop = (some s, ⟨r :: rs⟩) := by
        unfold History.Pop; rw [hs]; rfl
      unfold Browser.Back
      rw [if_pos hl, hpop]
  refine ⟨?_, hpopped, ?_, ?_⟩
  · by_cases hl : bow.history.Len > 1
    · cases hs : bow.history.stack with
      | nil => unfold History.Len at hl; rw [hs] at hl; simp at hl
      | cons s rest =>
        cases rest with
        | nil => unfold History.Len at hl; rw [hs] at hl; simp at hl
        | cons r rs =>
          rw [hpopped s (r :: rs) hs (by simp)]
          simp [hl]
    · unfold Browser.Back
      rw [if_neg hl]
      simp [hl]
  · intro hle
    unfold Browser.Back
    rw [if_neg (by omega)]
  · intro n
    clear hpopped
    induction n generalizing bow with
    | zero => intro h; exact h
    | succ k ih =>
      intro h
      exact ih (bow.Back).1 (back_len_ge bow h)

/-- Witness for the Back theorem: with three history entries Back pops
the top entry, and from one entry repeated Back calls keep the length
at one and report false. -/
theorem back_spec_witness :
    bDeep.history.stack = some stLoaded :: [some stLoaded, none]
    ∧ ([some stLoaded, none] ≠ ([] : List (Option SessState)))
    ∧ bDeep.Back =
        ({bDeep with state := some stLoaded, history := ⟨[some stLoaded, none]⟩}, true)
    ∧ bLoaded.history.Len ≤ 1
    ∧ bLoaded.Back = (bLoaded, false)
    ∧ 1 ≤ (backN 3 bLoaded).history.Len := by
  refine ⟨rfl, by simp, ?_, by decide, ?_, ?_⟩
  · exact (back_spec bDeep).2.1 (some stLoaded) [some stLoaded, none] rfl (by simp)
  · exact (back_spec bLoaded).2.2.1 (by decide)
  · exact (back_spec bLoaded).2.2.2 3 (by decide)

/-- C6: on the freshly constructed browser the state field is the nil
pointer, so Reload dereferences nil and the run has no value (a panic)
instead of returning the PageNotLoaded error; once a state with an
originating request exists, Reload re-issues exactly that request
through the full pipeline, giving a fresh PreRequest and PostRequest
cycle. -/
theorem reload_nil_state (env : Env) :
    NewBrowser.Reload env = none
    ∧ bLoaded.Reload env = some (bLoaded.httpRequest env req0) := by
  exact ⟨rfl, rfl⟩

/-- When every hop is allowed, the transport consults the redirect
callback once per hop and delivers the final outcome. -/
theorem clientDo_follow_all (b2 : Browser)
    (hb : b2.attributes Attribute.followRedirects = true)
    (hops : List Request) (final : Except Err Response) :
    b2.clientDo hops final = (final, hops.map Request.url) := by
  induction hops with
  | nil => rfl
  | cons hd tl ih => simp [Browser.clientDo, Browser.shouldRedirect, hb, ih]

/-- C7: with FollowRedirects false, a navigation whose transport
exchange encounters a redirect aborts with the redirect disabled
Location error for the hop at which the per-hop check fired, leaving
the current state and the history unchanged; the companion equations
show the per-hop mechanism: with the attribute false the callback is
consulted exactly at the first hop and aborts there, and with the
attribute true it is consulted once per hop and the exchange
proceeds. -/
theorem redirect_disabled_aborts (bow : Browser) (env : Env) (req : Request)
    (h1 : Request) (rest : List Request)
    (hattr : bow.attributes Attribute.followRedirects = false)
    (hpre : env.pre req = none)
    (hhops : env.hops = h1 :: rest) :
    (bow.httpRequest env req).err = some (Err.location h1.url)
    ∧ (bow.httpRequest env req).bow.state = bow.state
    ∧ (bow.httpRequest env req).bow.history = bow.history
    ∧ bow.clientDo env.hops env.final =
        (Except.error (Err.location h1.url), [h1.url])
    ∧ (∀ (b2 : Browser) (hops2 : List Request) (final2 : Except Err Response),
        b2.attributes Attribute.followRedirects = true →
        b2.clientDo hops2 final2 = (final2, hops2.map Request.url)) := by
  have hcd : bow.clientDo env.hops env.final =
      (Except.error (Err.location h1.url), [h1.url]) := by
    rw [hhops]
    unfold Browser.clientDo Browser.shouldRedirect
    rw [hattr]
    simp
  have htf := httpRequest_transport_fail bow env req (Err.location h1.url) hpre
    (by rw [hcd])
  rw [htf]
  exact ⟨rfl, by simp, by simp, hcd,
    fun b2 hops2 final2 hb => clientDo_follow_all b2 hb hops2 final2⟩

/-- Witness for the redirect theorem: a loaded browser with the
attribute false navigating through an exchange with one redirect hop. -/
theorem redirect_disabled_aborts_witness :
    bNoRedirect.attributes Attribute.followRedirects = false
    ∧ envRedirect.pre req0 = none
    ∧ envRedirect.hops = req1 :: []
    ∧ (bNoRedirect.httpRequest envRedirect req0).err =
        some (Err.location req1.url)
    ∧ (bNoRedirect.httpRequest envRedirect req0).bow.state = bNoRedirect.state
    ∧ (bNoRedirect.httpRequest envRedirect req0).bow.history =
        bNoRedirect.history := by
  have h := redirect_disabled_aborts bNoRedirect envRedirect req0 req1 []
    rfl rfl rfl
  exact ⟨rfl, rfl, rfl, h.1, h.2.1, h.2.2.1⟩

/-- C8: every navigation with a set meta refresh timer stops it right
after the PreRequest dispatch, hence before the transport call and
before any later arming (the trace begins preDispatch, stopTimer, so
every transportCall and armTimer action lies after the stop); whenever
a timer is armed, the single timer slot of the session afterwards holds
exactly the newly armed live timer, discarding any previous one; and a
refresh directive whose delay does not parse arms nothing and raises
nothing, leaving the browser untouched. -/
theorem metaRefresh_timer_spec :
    (∀ (bow : Browser) (env : Env) (req : Request) (t : Timer),
      bow.refresh = some t → env.pre req = none →
      ∃ rest, (bow.httpRequest env req).trace =
        NavAction.preDispatch :: NavAction.stopTimer :: rest)
    ∧ (∀ (bow : Browser) (env : Env) (req : Request) (d : Nat),
      NavAction.armTimer d ∈ (bow.httpRequest env req).trace →
      (bow.httpRequest env req).bow.refresh = some ⟨true, d⟩)
    ∧ (∀ (bow : Browser) (pd : String → Option Nat) (c : String),
      bow.findRefreshContent = some (some c) → pd (c ++ "s") = none →
      bow.handleMetaRefresh pd = (bow, [])) := by
  refine ⟨?_, ?_, ?_⟩
  · intro bow env req t ht hpre
    have hs : bow.stopRefresh =
        ({bow with refresh := some ⟨false, t.delay⟩}, [NavAction.stopTimer]) := by
      unfold Browser.stopRefresh
      rw [ht]
    cases hcl : (bow.clientDo env.hops env.final).1 with
    | error e =>
      rw [httpRequest_transport_fail bow env req e hpre hcl, hs]
      exact ⟨_, rfl⟩
    | ok resp =>
      cases hparse : env.parse resp with
      | error e =>
        rw [httpRequest_parse_fail bow env req resp e hpre hcl hparse, hs]
        exact ⟨_, rfl⟩
      | ok dom =>
        rw [httpRequest_commit bow env req resp dom hpre hcl hparse, hs]
        exact ⟨_, rfl⟩
  · intro bow env req d hmem
    cases hpre : env.pre req with
    | some err =>
      rw [httpRequest_pre_fail bow env req err hpre] at hmem
      simp at hmem
    | none =>
      cases hcl : (bow.clientDo env.hops env.final).1 with
      | error e =>
        rw [httpRequest_transport_fail bow env req e hpre hcl] at hmem
        rcases stopRefresh_trace bow with ht | ht <;> rw [ht] at hmem <;>
          simp at hmem
      | ok resp =>
        cases hparse : env.parse resp with
        | error e =>
          rw [httpRequest_parse_fail bow env req resp e hpre hcl hparse] at hmem
          rcases stopRefresh_trace bow with ht | ht <;> rw [ht] at hmem <;>
            simp at hmem
        | ok dom =>
          rw [httpRequest_commit bow env req resp dom hpre hcl hparse] at hmem
          rw [httpRequest_commit bow env req resp dom hpre hcl hparse]
          rcases handleMetaRefresh_cases
              ({(bow.stopRefresh).1 with
                history := (bow.stopRefresh).1.history.Push (bow.stopRefresh).1.state,
                state := some (NewHistoryState req resp dom)})
              env.parseDuration with ⟨dur, hm⟩ | hm
          · rw [hm] at hmem
            rw [hm]
            rcases stopRefresh_trace bow with ht | ht <;> rw [ht] at hmem <;>
              simp at hmem <;> subst hmem <;> rfl
          · rw [hm] at hmem
            rcases stopRefresh_trace bow with ht | ht <;> rw [ht] at hmem <;>
              simp at hmem
  · intro bow pd c h1 h2
    unfold Browser.handleMetaRefresh
    split
    · simp only [h1, h2]
    · rfl

/-- Witness for the timer theorem: a browser with a live timer
navigating successfully has a trace that stops the timer right after
the dispatch; a navigation arming a two second timer ends with exactly
that live timer; and an unparsable directive leaves the browser
untouched. -/
theorem metaRefresh_timer_spec_witness :
    bTimer.refresh = some ⟨true, 5⟩
    ∧ envOk.pre req0 = none
    ∧ (∃ rest, (bTimer.httpRequest envOk req0).trace =
        NavAction.preDispatch :: NavAction.stopTimer :: rest)
    ∧ NavAction.armTimer 2 ∈ (bLoaded.httpRequest envRefresh req0).trace
    ∧ (bLoaded.httpRequest envRefresh req0).bow.refresh = some ⟨true, 2⟩
    ∧ bDocR.findRefreshContent = some (some "2")
    ∧ (fun _ : String => (none : Option Nat)) ("2" ++ "s") = none
    ∧ bDocR.handleMetaRefresh (fun _ => none) = (bDocR, []) := by
  refine ⟨rfl, rfl, ?_, by decide, ?_, rfl, rfl, ?_⟩
  · exact metaRefresh_timer_spec.1 bTimer envOk req0 ⟨true, 5⟩ rfl rfl
  · exact metaRefresh_timer_spec.2.1 bLoaded envRefresh req0 2 (by decide)
  · exact metaRefresh_timer_spec.2.2 bDocR (fun _ => none) "2" rfl rfl

/-- C9: on a page with n form elements, n at least one, Forms returns a
slice of length 2n whose first n entries are the nil placeholders the
incorrect pre-sizing put there, followed by the n constructed forms in
document order; on a page with no form elements it returns the nil
slice. -/
theorem forms_nil_interspersed (bow : Browser) (st : SessState) (d : Document)
    (hst : bow.state = some st) (hdom : st.dom = some d) :
    (d.forms ≠ [] →
      bow.Forms = some (List.replicate d.forms.length (none : Option Form)
        ++ d.forms.map (fun s => some (newForm s)))
      ∧ ∀ l, bow.Forms = some l →
          l.length = 2 * d.forms.length
          ∧ l.take d.forms.length = List.replicate d.forms.length none
          ∧ l.drop d.forms.length = d.forms.map (fun s => some (newForm s)))
    ∧ (d.forms = [] → bow.Forms = some []) := by
  have hF : bow.Forms = (if d.forms.length = 0 then some []
      else some (d.forms.foldl (fun forms s => forms ++ [some (newForm s)])
        (List.replicate d.forms.length (none : Option Form)))) := by
    unfold Browser.Forms
    simp only [hst, hdom]
  constructor
  · intro hne
    have hlen : d.forms.length ≠ 0 := by
      simpa using hne
    have heq : bow.Forms = some (List.replicate d.forms.length (none : Option Form)
        ++ d.forms.map (fun s => some (newForm s))) := by
      rw [hF, if_neg hlen, foldl_append_map]
    refine ⟨heq, ?_⟩
    intro l hl
    rw [heq] at hl
    have hl2 : l = List.replicate d.forms.length (none : Option Form)
        ++ d.forms.map (fun s => some (newForm s)) := by
      exact (Option.some.inj hl).symm
    subst hl2
    refine ⟨by simp [two_mul], ?_, ?_⟩
    · have := List.take_left (List.replicate d.forms.length (none : Option Form))
        (d.forms.map (fun s => some (newForm s)))
      simpa using this
    · have := List.drop_left (List.replicate d.forms.length (none : Option Form))
        (d.forms.map (fun s => some (newForm s)))
      simpa using this
  · intro h0
    rw [hF]
    simp [h0]

/-- Witness for the Forms theorem: a page with two forms yields the
four entry slice with two leading nil entries, and a page with no forms
yields the nil slice. -/
theorem forms_nil_interspersed_witness :
    bForms.state = some ⟨some req0, some resp0, some doc2⟩
    ∧ (⟨some req0, some resp0, some doc2⟩ : SessState).dom = some doc2
    ∧ doc2.forms ≠ []
    ∧ bForms.Forms =
        some [none, none, some (newForm ⟨1⟩), some (newForm ⟨2⟩)]
    ∧ bLoaded.Forms = some [] := by
  have h := forms_nil_interspersed bForms ⟨some req0, some resp0, some doc2⟩
    doc2 rfl rfl
  refine ⟨rfl, rfl, by simp [doc2], ?_, ?_⟩
  · exact (h.1 (by simp [doc2])).1
  · exact (forms_nil_interspersed bLoaded stLoaded doc0 rfl rfl).2 rfl

/-- Request assembly extends the headers jar in place: the jar
afterwards is the jar before followed by the User-Agent entry and the
other conditional additions. -/
theorem buildRequest_extend (bow : Browser) (enc : String → String)
    (m u : String) (ref : Option String) :
    ∃ added, (bow.buildRequest enc m u ref).1.headers =
      bow.headers ++ ("User-Agent", bow.userAgent) :: added := by
  unfold Browser.buildRequest
  cases ref with
  | none =>
    dsimp only
    split
    · exact ⟨[("Authorization",
        "Basic " ++ basicAuth enc bow.auth.username bow.auth.password)], by simp⟩
    · exact ⟨[], by simp⟩
  | some r =>
    dsimp only
    split <;> split
    · exact ⟨[("Referer", r), ("Authorization",
        "Basic " ++ basicAuth enc bow.auth.username bow.auth.password)], by simp⟩
    · exact ⟨[("Authorization",
        "Basic " ++ basicAuth enc bow.auth.username bow.auth.password)], by simp⟩
    · exact ⟨[("Referer", r)], by simp⟩
    · exact ⟨[], by simp⟩

/-- Each request assembly adds exactly one User-Agent entry to the
shared headers jar. -/
theorem buildRequest_ua_count (bow : Browser) (enc : String → String)
    (m u : String) (ref : Option String) :
    headerCount "User-Agent" (bow.buildRequest enc m u ref).1.headers =
      headerCount "User-Agent" bow.headers + 1 := by
  unfold Browser.buildRequest
  cases ref with
  | none =>
    dsimp only
    split <;> simp [headerCount, List.filter_append, List.filter_cons]
  | some r =>
    dsimp only
    split <;> split <;> simp [headerCount, List.filter_append, List.filter_cons]

/-- Request assembly never touches the user agent field. -/
theorem buildRequest_userAgent (bow : Browser) (enc : String → String)
    (m u : String) (ref : Option String) :
    (bow.buildRequest enc m u ref).1.userAgent = bow.userAgent :=
  rfl

/-- C10: buildRequest assigns the shared headers jar to the request by
reference, so the assembled request reads the very jar content
(first conjunct), every header added during assembly lands in the jar
itself (second conjunct), a later request sees all earlier additions as
a prefix of its own headers (third conjunct), the User-Agent entry
accumulates once per assembly so two assemblies add two copies (fourth
conjunct), and the Content-Type added by httpPOST through the aliased
request header map ends up in the browser headers jar that survives the
navigation (fifth conjunct). -/
theorem buildRequest_header_aliasing (enc : String → String) (bow : Browser)
    (m u : String) (ref : Option String) :
    (bow.buildRequest enc m u ref).2.headers =
        (bow.buildRequest enc m u ref).1.headers
    ∧ (∃ added, (bow.buildRequest enc m u ref).1.headers =
        bow.headers ++ ("User-Agent", bow.userAgent) :: added)
    ∧ (∃ tail2, ((bow.buildRequest enc m u ref).1.buildRequest enc m u ref).2.headers =
        (bow.buildRequest enc m u ref).2.headers ++ tail2)
    ∧ headerCount "User-Agent"
        (((bow.buildRequest enc m u ref).1.buildRequest enc m u ref).2.headers) =
      headerCount "User-Agent" bow.headers + 2
    ∧ (∀ (env : Env) (ct : String) (body : Option String),
        ("Content-Type", ct) ∈ (bow.httpPOST enc env u ref ct body).bow.headers) := by
  have h11 : (bow.buildRequest enc m u ref).2.headers =
      (bow.buildRequest enc m u ref).1.headers := rfl
  have h21 : (((bow.buildRequest enc m u ref).1.buildRequest enc m u ref)).2.headers =
      (((bow.buildRequest enc m u ref).1.buildRequest enc m u ref)).1.headers := rfl
  refine ⟨h11, buildRequest_extend bow enc m u ref, ?_, ?_, ?_⟩
  · obtain ⟨a2, e2⟩ := buildRequest_extend (bow.buildRequest enc m u ref).1 enc m u ref
    refine ⟨("User-Agent", (bow.buildRequest enc m u ref).1.userAgent) :: a2, ?_⟩
    rw [h21, e2, h11]
  · rw [h21, buildRequest_ua_count, buildRequest_ua_count]
  · intro env ct body
    unfold Browser.httpPOST
    rw [httpRequest_headers]
    simp
